import Mathlib

/-
Verification of the process-lifecycle and control-panel state machine of the
Telegram-Listener repository (src/ListnerBot.py), as a shallow embedding.

Python strings are modelled as `List Char` (`Str`), so that Python's
`str.split('_')` / `'_'.join(...)` and slicing become explicit, provable list
operations.  Python dicts (string-keyed, insertion-ordered, unique keys) are
modelled as association lists whose update operation replaces in place and
whose delete operation removes the key, exactly as a dict behaves.

The OS is a parameter (`World`): whether a spawn attempt raises, whether a
recorded process has exited at the moment `poll()` is called, whether the
script path exists on disk, and whether the graceful wait times out.  The
handler's OS-facing calls (Popen / terminate / wait / kill) are recorded in an
explicit trace so that "no Process Registry operation is performed" is a
provable statement.
-/

abbrev Str := List Char

/-- Uppercase a Python string, as `str.upper()` does per character. -/
def upperStr (s : Str) : Str := s.map Char.toUpper

/-- Lowercase a Python string, as `str.lower()` does per character. -/
def lowerStr (s : Str) : Str := s.map Char.toLower

/-- Decimal rendering of a number, as Python string interpolation does. -/
def natToStr (n : Nat) : Str := (Nat.repr n).toList

/-- True when the character `c` does not occur in `l`. -/
def noChar (c : Char) (l : Str) : Bool := l.all (fun x => decide (¬ x = c))

/-- Python's `str.split(sep)` for a one-character separator: splits on every
occurrence, keeps empty fragments, and yields `[""]` on the empty string. -/
def splitOnChar (c : Char) : Str → List Str
  | [] => [[]]
  | x :: xs =>
    match splitOnChar c xs with
    | [] => [[]]
    | h :: t => if x = c then [] :: h :: t else (x :: h) :: t

/-- Python's `sep.join(parts)` for a one-character separator. -/
def intercalateChar (c : Char) : List Str → Str
  | [] => []
  | [x] => x
  | x :: y :: rest => x ++ c :: intercalateChar c (y :: rest)

/-- The command-payload parse used by the `status_`/`info_`/`start_`/`stop_`
branches of `button`: split the remainder on `'_'`, take the final token as
the device label and re-join everything before it as the script name.  Yields
`none` when there are fewer than two tokens (the Python branch then does
nothing). -/
def parseND (rest : Str) : Option (Str × Str) :=
  if 2 ≤ (splitOnChar '_' rest).length then
    some (intercalateChar '_' (splitOnChar '_' rest).dropLast,
          (splitOnChar '_' rest).getLastD [])
  else none

/-- Dict lookup (`d.get(k)` / `k in d`): first — and in a dict, only —
binding of the key. -/
def dlookup {α : Type} (k : Str) : List (Str × α) → Option α
  | [] => none
  | e :: rest => if e.1 = k then some e.2 else dlookup k rest

/-- Dict membership test (`k in d`). -/
def dmem {α : Type} (k : Str) (m : List (Str × α)) : Bool :=
  (dlookup k m).isSome

/-- Dict assignment (`d[k] = v`): replaces the value in place when the key is
present (a dict keeps the key's original position), appends otherwise. -/
def dinsert {α : Type} (k : Str) (v : α) (m : List (Str × α)) : List (Str × α) :=
  if dmem k m then m.map (fun e => if e.1 = k then (k, v) else e)
  else m ++ [(k, v)]

/-- Dict deletion (`del d[k]`): removes the binding of `k`; since a dict's
keys are unique, this is removal of every pair carrying the key. -/
def derase {α : Type} (k : Str) (m : List (Str × α)) : List (Str × α) :=
  m.filter (fun e => decide (¬ e.1 = k))

/-- An OS process handle held in `running_processes`.  `alive` is the
observation `poll() is None` made while handling the current command. -/
structure Proc where
  pid : Nat
  alive : Bool
deriving DecidableEq

/-- The global `running_processes` dict: process key → handle. -/
abbrev RunMap := List (Str × Proc)

/-- The liveness test the handler uses everywhere:
`process_key in running_processes and running_processes[process_key].poll() is None`. -/
def is_running (key : Str) (m : RunMap) : Bool :=
  match dlookup key m with
  | some p => p.alive
  | none => false

/-- One value of a script's per-device mapping in config.json: either a bare
path string or an object with `path` / `python_cmd` / `description` fields. -/
inductive DeviceEntry
  | strPath (path : Str)
  | objCfg (path : Option Str) (pythonCmd : Option Str) (description : Option Str)
deriving DecidableEq

/-- One entry of a group's `scripts` list in config.json.  `oldPath` is the
legacy single-path format (`"path"` holding a string); when it is present the
`devices` mapping is ignored, exactly as the `isinstance(..., str)` branch
does. -/
structure ScriptCfg where
  name : Str
  description : Option Str
  oldPath : Option Str
  devices : List (Str × DeviceEntry)
deriving DecidableEq

/-- A group's configuration (`config["groups"][chat_id]`). -/
structure GroupConfig where
  name : Option Str
  welcome_message : Option Str
  scripts : List ScriptCfg
  auto_post : Bool
deriving DecidableEq

/-- The loaded config.json, restricted to the fields the handler reads. -/
structure Config where
  authorized_user_ids : List Nat
  current_device : Option Str
  auto_post_control_panel : Bool
  groups : List (Str × GroupConfig)
deriving DecidableEq

/-- Device identity resolution (`get_current_device`): explicit
`current_device` override from config, else platform inspection mapping
`darwin` to `mac`, `windows` to `pc`, anything else to `unknown`. -/
def get_current_device (cfg : Config) (system : Str) : Str :=
  match cfg.current_device with
  | some d => d
  | none =>
    if system = "darwin".toList then "mac".toList
    else if system = "windows".toList then "pc".toList
    else "unknown".toList

/-- A value of the scripts dict built by `get_scripts_for_group`. -/
structure ScriptInfo where
  path : Str
  device : Str
  description : Str
  base_name : Option Str
  python_cmd : Option Str
deriving DecidableEq

/-- The dict entries one config script contributes to the scripts dict.
Old format: one entry under the bare script name with device label `legacy`.
New format: one entry per configured device, keyed `"{name} ({DEVICE})"`;
a bare-string device entry carries no `python_cmd` key, an object entry
stores `python_cmd` with its `"python3"` default already applied, exactly as
the source builds these dicts. -/
def scriptEntries (s : ScriptCfg) : List (Str × ScriptInfo) :=
  match s.oldPath with
  | some p => [(s.name, ⟨p, "legacy".toList, s.description.getD [], none, none⟩)]
  | none =>
    s.devices.map (fun e =>
      let key := s.name ++ " (".toList ++ upperStr e.1 ++ ")".toList
      match e.2 with
      | .strPath p =>
        (key, ⟨p, e.1, s.description.getD [], some s.name, none⟩)
      | .objCfg p pc d =>
        (key, ⟨p.getD [], e.1,
               (match d with | some x => x | none => s.description.getD []),
               some s.name, some (pc.getD ("python3".toList))⟩))

/-- `get_scripts_for_group`: empty dict when the group is unconfigured,
otherwise the flattening of every script's per-device entries into one dict,
built by successive dict assignments. -/
def get_scripts_for_group (cfg : Config) (chat_id : Str) : List (Str × ScriptInfo) :=
  match dlookup chat_id cfg.groups with
  | none => []
  | some g =>
    g.scripts.foldl (fun acc s =>
      (scriptEntries s).foldl (fun acc2 e => dinsert e.1 e.2 acc2) acc) []

/-- Emoji lookup for a device label (`get_device_emoji`). -/
def get_device_emoji (device : Str) : Str :=
  let d := lowerStr device
  if d = "mac".toList then "🍎".toList
  else if d = "pc".toList then "🖥️".toList
  else if d = "windows".toList then "🖥️".toList
  else if d = "linux".toList then "🐧".toList
  else if d = "legacy".toList then "💻".toList
  else "💻".toList

/-- One inline keyboard button: a label and its callback payload. -/
structure Btn where
  label : Str
  callback_data : Str
deriving DecidableEq

/-- The row of buttons `create_control_panel` emits for one scripts-dict
entry: a start/stop toggle plus a status button when the entry's device is
the acting device or the `legacy` label, an info-only button otherwise. -/
def mkScriptRow (cd : Str) (m : RunMap) (name : Str) (info : ScriptInfo) : List Btn :=
  let key := name ++ '_' :: info.device
  if info.device = cd ∨ info.device = "legacy".toList then
    if is_running key m then
      [⟨"🔴 Stop ".toList ++ name, "stop_".toList ++ key⟩,
       ⟨"✅ Running".toList, "status_".toList ++ key⟩]
    else
      [⟨"🟢 Start ".toList ++ name, "start_".toList ++ key⟩,
       ⟨"⭕ Stopped".toList, "status_".toList ++ key⟩]
  else
    [⟨"ℹ️ ".toList ++ name ++ " (Other Device)".toList, "info_".toList ++ key⟩]

/-- Helper for `firstDevices`: walk the scripts dict in order, collecting
each device label the first time it is seen (`seen` holds those already
collected). -/
def firstDevicesAux (seen : List Str) : List (Str × ScriptInfo) → List Str
  | [] => []
  | e :: rest =>
    if decide (e.2.device ∈ seen) then firstDevicesAux seen rest
    else e.2.device :: firstDevicesAux (e.2.device :: seen) rest

/-- The device labels of a scripts dict in first-occurrence order: the key
order of the `device_scripts` dict-of-lists the panel builder accumulates. -/
def firstDevices (l : List (Str × ScriptInfo)) : List Str :=
  firstDevicesAux [] l

/-- The `device_scripts` grouping: per device label (in first-occurrence key
order) the in-order list of scripts-dict entries for that device, which is
how a dict-of-lists built by appending behaves. -/
def groupByDevice (l : List (Str × ScriptInfo)) : List (Str × List (Str × ScriptInfo)) :=
  (firstDevices l).map (fun d => (d, l.filter (fun e => decide (e.2.device = d))))

/-- The device header row shown above a device's scripts when more than one
device group exists. -/
def headerRow (d : Str) : List Btn :=
  [⟨get_device_emoji d ++ ' ' :: upperStr d, "device_info_".toList ++ d⟩]

/-- The trailing utility row of every panel. -/
def utilityRow : List Btn :=
  [⟨"🔄 Refresh Status".toList, "refresh".toList⟩,
   ⟨"⚙️ Settings".toList, "settings".toList⟩]

/-- The script rows for one device group, with an optional header. -/
def deviceBlock (cd : Str) (m : RunMap) (many : Bool) (g : Str × List (Str × ScriptInfo)) :
    List (List Btn) :=
  (if many then [headerRow g.1] else [])
    ++ g.2.map (fun e => mkScriptRow cd m e.1 e.2)

/-- `create_control_panel`: `None` when the scripts dict is empty, otherwise
the per-device blocks followed by the utility row. -/
def create_control_panel (cd : Str) (scripts : List (Str × ScriptInfo)) (m : RunMap) :
    Option (List (List Btn)) :=
  if scripts = [] then none
  else
    let dgroups := groupByDevice scripts
    some (((dgroups.map (deviceBlock cd m (decide (1 < dgroups.length)))).flatten)
      ++ [utilityRow])

/-- OS-facing calls a command handler performs on process state, in order. -/
inductive ProcAct
  | popen (cmd : Str) (path : Str)
  | terminate (pid : Nat)
  | waitTimeout (pid : Nat) (secs : Nat)
  | kill (pid : Nat)
  | wait (pid : Nat)
deriving DecidableEq

/-- The OS facts relevant to one command: whether the target script path
exists on this device (never consulted by the handler — the source has no
existence check), the outcome of a `subprocess.Popen` attempt (the spawned
handle, or the exception text when the spawn raises), whether a graceful
`wait(timeout=5)` returns before the timeout, and whether the termination
sequence raises (modelled as `terminate()` itself raising). -/
structure World where
  pathExists : Bool
  spawnRes : Except Str Proc
  gracefulExit : Bool
  stopRaises : Bool
  stopErr : Str

/-- A reply sent back to the operator: an edited message (optionally carrying
a fresh keyboard), a popup alert, or no reply at all (the Python branch falls
through without responding). -/
inductive Response
  | edit (text : Str)
  | editMarkup (text : Str) (kb : List (List Btn))
  | alert (text : Str)
  | silent
deriving DecidableEq

/-- Everything observable about handling one callback: the
`running_processes` dict afterwards, the reply, and the OS calls made. -/
structure CmdResult where
  map : RunMap
  resp : Response
  trace : List ProcAct
deriving DecidableEq

/-- The dispatch of `button` over the callback payload, mirroring its
`==` / `startswith` elif chain (the payload classes are pairwise disjoint,
so first-match order is immaterial). -/
inductive BotAction
  | refresh
  | settings
  | deviceInfo (rest : Str)
  | status (rest : Str)
  | info (rest : Str)
  | start (rest : Str)
  | stop (rest : Str)
  | other
deriving DecidableEq

/-- Classify a callback payload exactly as `button`'s elif chain does, each
prefix test stripping the matched prefix. -/
def classify : Str → BotAction
  | ['r', 'e', 'f', 'r', 'e', 's', 'h'] => .refresh
  | ['s', 'e', 't', 't', 'i', 'n', 'g', 's'] => .settings
  | 'd':: 'e':: 'v':: 'i':: 'c':: 'e':: '_':: 'i':: 'n':: 'f':: 'o':: '_'::rest => .deviceInfo rest
  | 's':: 't':: 'a':: 't':: 'u':: 's':: '_'::rest => .status rest
  | 'i':: 'n':: 'f':: 'o':: '_'::rest => .info rest
  | 's':: 't':: 'a':: 'r':: 't':: '_'::rest => .start rest
  | 's':: 't':: 'o':: 'p':: '_'::rest => .stop rest
  | _ => .other

/-- Rejection sent to a caller who is not on the allow-list. -/
def unauthorizedMsg : Str := "❌ You are not authorized to trigger this script.".toList

/-- Reply when a group has no scripts to render a panel from. -/
def noScriptsMsg : Str := "⚠️ No scripts configured for this group.".toList

/-- The default welcome text used when a group sets none. -/
def defaultWelcome (cd : Str) : Str :=
  "🤖 **Script Control Panel** 🤖\n\n".toList ++ get_device_emoji cd
    ++ " Currently running on: **".toList ++ upperStr cd ++ "**".toList

/-- Rejection of a `start` for a key that is already running. -/
def alreadyRunningMsg (name dev : Str) : Str :=
  "⚠️ Script '".toList ++ name ++ "' is already running on ".toList
    ++ upperStr dev ++ "!".toList

/-- Success reply of a `start`, carrying the fresh process id. -/
def startSuccessMsg (name dev : Str) (pid : Nat) (pythonCmd : Str) : Str :=
  "✅ **Script Started Successfully!**\n\n📝 **Name:** ".toList ++ name
    ++ "\n".toList ++ get_device_emoji dev ++ " **Device:** ".toList ++ upperStr dev
    ++ "\n🆔 **Process ID:** ".toList ++ natToStr pid
    ++ "\n🐍 **Python Command:** ".toList ++ pythonCmd

/-- Reply when the spawn attempt raises. -/
def startFailMsg (name dev e : Str) : Str :=
  "❌ Failed to start '".toList ++ name ++ "' on ".toList ++ upperStr dev
    ++ ": ".toList ++ e

/-- Rejection of a `start` whose script is unknown or whose device label is
not this instance's device. -/
def notAvailMsg : Str :=
  "⚠️ Script not found or not available on current device.".toList

/-- Success reply of a `stop`. -/
def stopSuccessMsg (name dev : Str) : Str :=
  "🛑 **Script Stopped Successfully!**\n\n📝 **Name:** ".toList ++ name
    ++ "\n".toList ++ get_device_emoji dev ++ " **Device:** ".toList ++ upperStr dev
    ++ "\n✅ **Status:** Process terminated".toList

/-- Reply when the termination sequence raises. -/
def stopFailMsg (name dev e : Str) : Str :=
  "❌ Failed to stop '".toList ++ name ++ "' on ".toList ++ upperStr dev
    ++ ": ".toList ++ e

/-- Rejection of a `stop` whose recorded process has already exited. -/
def notRunningMsg (name dev : Str) : Str :=
  "⚠️ Script '".toList ++ name ++ "' is not running on ".toList
    ++ upperStr dev ++ ".".toList

/-- Rejection of a `stop` for a key with no recorded handle. -/
def noProcMsg (name dev : Str) : Str :=
  "⚠️ No running process found for '".toList ++ name ++ "' on ".toList
    ++ upperStr dev ++ ".".toList

/-- The status popup of a `status_` button. -/
def statusMsg (m : RunMap) (name dev : Str) (info : ScriptInfo) : Str :=
  let key := name ++ '_' :: dev
  "📊 **Script Status:**\n\n📝 **Name:** ".toList ++ name
    ++ "\n".toList ++ get_device_emoji dev ++ " **Device:** ".toList ++ upperStr dev
    ++ "\n🔄 **Status:** ".toList
    ++ (if is_running key m then "✅ Running".toList else "⭕ Stopped".toList)
    ++ "\n📁 **Path:** `".toList ++ info.path ++ "`\n".toList
    ++ (if info.description = [] then []
        else "📋 **Description:** ".toList ++ info.description ++ "\n".toList)

/-- The info popup of an `info_` button (a script on another device). -/
def infoMsg (name dev : Str) (info : ScriptInfo) : Str :=
  "ℹ️ **Script Info:**\n\n📝 **Name:** ".toList ++ name
    ++ "\n".toList ++ get_device_emoji dev ++ " **Device:** ".toList ++ upperStr dev
    ++ "\n📁 **Path:** `".toList ++ info.path
    ++ "`\n💡 **Note:** This script runs on another device\n".toList
    ++ (if info.description = [] then []
        else "📋 **Description:** ".toList ++ info.description ++ "\n".toList)

/-- The popup of a `device_info_` header button. -/
def deviceInfoMsg (cd : Str) (scripts : List (Str × ScriptInfo)) (dev : Str) : Str :=
  let count := (scripts.filter (fun e => decide (e.2.device = dev))).length
  get_device_emoji dev ++ " **".toList ++ upperStr dev
    ++ " Device Info:**\n\n📝 **Scripts:** ".toList ++ natToStr count
    ++ "\n🔄 **Available:** ".toList
    ++ (if dev = cd then "✅".toList else "❌".toList) ++ "\n".toList
    ++ (if dev = cd then "💡 **Status:** This is the current device\n".toList
        else "💡 **Status:** Scripts managed on other device\n".toList)

/-- The per-device script tallies of the settings popup, accumulated as a
dict of counts over the scripts dict in order. -/
def deviceCounts (scripts : List (Str × ScriptInfo)) : List (Str × Nat) :=
  scripts.foldl (fun acc e =>
    dinsert e.2.device ((dlookup e.2.device acc).getD 0 + 1) acc) []

/-- The settings popup of the `settings` button. -/
def settingsMsg (cfg : Config) (cd : Str) (scripts : List (Str × ScriptInfo))
    (gc : Option GroupConfig) (m : RunMap) (chat_id : Str) : Str :=
  let group_name :=
    match gc with
    | some g => g.name.getD ("Unknown".toList)
    | none => "Not Configured".toList
  let running_count := (m.filter (fun e => e.2.alive)).length
  "⚙️ **Bot Settings for ".toList ++ group_name ++ ":**\n\n".toList
    ++ get_device_emoji cd ++ " **Current Device:** ".toList ++ upperStr cd
    ++ "\n👥 **Authorized Users:** ".toList ++ natToStr cfg.authorized_user_ids.length
    ++ "\n📝 **Total Scripts:** ".toList ++ natToStr scripts.length ++ "\n".toList
    ++ (deviceCounts scripts).foldl (fun acc e =>
         acc ++ "   ".toList ++ get_device_emoji e.1 ++ " ".toList ++ upperStr e.1
           ++ ": ".toList ++ natToStr e.2 ++ "\n".toList) []
    ++ "🔄 **Running Processes:** ".toList ++ natToStr running_count
    ++ "\n📡 **Auto-post Control Panel:** ".toList
    ++ (if cfg.auto_post_control_panel then "✅".toList else "❌".toList)
    ++ "\n🆔 **Group Chat ID:** `".toList ++ chat_id ++ "`\n".toList

/-- The body of the `start_` branch after a successful payload parse.
Rejects when the script is unknown to this group or the device label is not
this instance's; rejects an already-running key; otherwise attempts the
spawn, recording the handle only when `Popen` does not raise. -/
def startParsed (cd : Str) (w : World) (scripts : List (Str × ScriptInfo))
    (m : RunMap) (name dev : Str) : CmdResult :=
  match dlookup name scripts with
  | some info =>
    if dev = cd then
      if is_running (name ++ '_' :: dev) m then
        ⟨m, .edit (alreadyRunningMsg name dev), []⟩
      else
        match w.spawnRes with
        | .ok proc =>
          ⟨dinsert (name ++ '_' :: dev) proc m,
           .edit (startSuccessMsg name dev proc.pid
             (info.python_cmd.getD ("python3".toList))),
           [.popen (info.python_cmd.getD ("python3".toList)) info.path]⟩
        | .error e =>
          ⟨m, .edit (startFailMsg name dev e),
           [.popen (info.python_cmd.getD ("python3".toList)) info.path]⟩
    else ⟨m, .edit notAvailMsg, []⟩
  | none => ⟨m, .edit notAvailMsg, []⟩

/-- The `start_` branch of `button`: parse, then act; the Python branch does
nothing when the remainder has fewer than two underscore tokens. -/
def startAction (cd : Str) (w : World) (scripts : List (Str × ScriptInfo))
    (m : RunMap) (rest : Str) : CmdResult :=
  match parseND rest with
  | none => ⟨m, .silent, []⟩
  | some (name, dev) => startParsed cd w scripts m name dev

/-- The body of the `stop_` branch after a successful payload parse.
Not-found when no handle is recorded; not-running when the recorded process
has exited (the stale handle is left in place — the source's not-running
branch performs no deletion); otherwise terminate, wait up to 5 seconds,
kill-and-wait only on timeout, and delete the handle. -/
def stopParsed (w : World) (m : RunMap) (name dev : Str) : CmdResult :=
  match dlookup (name ++ '_' :: dev) m with
  | some proc =>
    if proc.alive then
      if w.stopRaises then
        ⟨m, .edit (stopFailMsg name dev w.stopErr), [.terminate proc.pid]⟩
      else
        ⟨derase (name ++ '_' :: dev) m, .edit (stopSuccessMsg name dev),
         [.terminate proc.pid, .waitTimeout proc.pid 5]
           ++ (if w.gracefulExit then [] else [.kill proc.pid, .wait proc.pid])⟩
    else ⟨m, .edit (notRunningMsg name dev), []⟩
  | none => ⟨m, .edit (noProcMsg name dev), []⟩

/-- The `stop_` branch of `button`: parse, then act. -/
def stopAction (w : World) (m : RunMap) (rest : Str) : CmdResult :=
  match parseND rest with
  | none => ⟨m, .silent, []⟩
  | some (name, dev) => stopParsed w m name dev

/-- The body of the `status_` branch after a successful parse: a status
popup when the script name is known to this group, no reply otherwise. -/
def statusBranch (m : RunMap) (scripts : List (Str × ScriptInfo))
    (name dev : Str) : CmdResult :=
  match dlookup name scripts with
  | some info => ⟨m, .alert (statusMsg m name dev info), []⟩
  | none => ⟨m, .silent, []⟩

/-- The body of the `info_` branch after a successful parse. -/
def infoBranch (m : RunMap) (scripts : List (Str × ScriptInfo))
    (name dev : Str) : CmdResult :=
  match dlookup name scripts with
  | some info => ⟨m, .alert (infoMsg name dev info), []⟩
  | none => ⟨m, .silent, []⟩

/-- The `status_` branch of `button`: parse, then reply (or, when the
remainder has fewer than two underscore tokens, do nothing). -/
def statusAction (m : RunMap) (scripts : List (Str × ScriptInfo))
    (rest : Str) : CmdResult :=
  match parseND rest with
  | some (name, dev) => statusBranch m scripts name dev
  | none => ⟨m, .silent, []⟩

/-- The `info_` branch of `button`: parse, then reply. -/
def infoAction (m : RunMap) (scripts : List (Str × ScriptInfo))
    (rest : Str) : CmdResult :=
  match parseND rest with
  | some (name, dev) => infoBranch m scripts name dev
  | none => ⟨m, .silent, []⟩

/-- The callback-query handler `button`: allow-list check, then dispatch on
the payload.  `cd` is the process-wide `CURRENT_DEVICE`, `w` the OS facts for
this command, `m` the `running_processes` dict before the command. -/
def button (cfg : Config) (cd : Str) (w : World) (m : RunMap)
    (chat_id : Str) (user_id : Nat) (action_data : Str) : CmdResult :=
  if cfg.authorized_user_ids.contains user_id then
    match classify action_data with
    | .refresh =>
      match create_control_panel cd (get_scripts_for_group cfg chat_id) m with
      | none => ⟨m, .edit noScriptsMsg, []⟩
      | some kb =>
        ⟨m, .editMarkup
          (match dlookup chat_id cfg.groups with
           | some g => g.welcome_message.getD (defaultWelcome cd)
           | none => defaultWelcome cd) kb, []⟩
    | .settings =>
      ⟨m, .alert (settingsMsg cfg cd (get_scripts_for_group cfg chat_id)
        (dlookup chat_id cfg.groups) m chat_id), []⟩
    | .deviceInfo dev =>
      ⟨m, .alert (deviceInfoMsg cd (get_scripts_for_group cfg chat_id) dev), []⟩
    | .status rest => statusAction m (get_scripts_for_group cfg chat_id) rest
    | .info rest => infoAction m (get_scripts_for_group cfg chat_id) rest
    | .start rest => startAction cd w (get_scripts_for_group cfg chat_id) m rest
    | .stop rest => stopAction w m rest
    | .other => ⟨m, .silent, []⟩
  else ⟨m, .edit unauthorizedMsg, []⟩

theorem splitOnChar_ne_nil (c : Char) (l : Str) : splitOnChar c l ≠ [] := by
  induction l with
  | nil => simp [splitOnChar]
  | cons x xs ih =>
    simp only [splitOnChar]
    cases h : splitOnChar c xs with
    | nil => simp
    | cons hd tl => by_cases hx : x = c <;> simp [hx]

theorem splitOnChar_cons_of_cons (c x : Char) (xs : Str) (h : Str) (t : List Str)
    (hht : splitOnChar c xs = h :: t) :
    splitOnChar c (x :: xs) = if x = c then [] :: h :: t else (x :: h) :: t := by
  simp only [splitOnChar, hht]

theorem splitOnChar_append (c : Char) (xs ys : Str) :
    splitOnChar c (xs ++ c :: ys) = splitOnChar c xs ++ splitOnChar c ys := by
  induction xs with
  | nil =>
    cases h : splitOnChar c ys with
    | nil => exact absurd h (splitOnChar_ne_nil c ys)
    | cons hd tl => simp [splitOnChar, h]
  | cons x xs ih =>
    obtain ⟨h, t, hht⟩ : ∃ h t, splitOnChar c xs = h :: t := by
      cases hsp : splitOnChar c xs with
      | nil => exact absurd hsp (splitOnChar_ne_nil c xs)
      | cons a b => exact ⟨a, b, rfl⟩
    have hmid : splitOnChar c (xs ++ c :: ys) = h :: (t ++ splitOnChar c ys) := by
      rw [ih, hht]; simp
    rw [List.cons_append, splitOnChar_cons_of_cons c x _ _ _ hmid,
        splitOnChar_cons_of_cons c x _ _ _ hht]
    by_cases hx : x = c <;> simp [hx]

theorem splitOnChar_of_noChar (c : Char) (l : Str) (h : noChar c l = true) :
    splitOnChar c l = [l] := by
  induction l with
  | nil => simp [splitOnChar]
  | cons x xs ih =>
    simp only [noChar, List.all_cons, Bool.and_eq_true, decide_eq_true_eq] at h
    have hxs := ih h.2
    simp [splitOnChar, hxs, h.1]

theorem intercalateChar_splitOnChar (c : Char) (l : Str) :
    intercalateChar c (splitOnChar c l) = l := by
  induction l with
  | nil => simp [splitOnChar, intercalateChar]
  | cons x xs ih =>
    obtain ⟨h, t, hht⟩ : ∃ h t, splitOnChar c xs = h :: t := by
      cases hsp : splitOnChar c xs with
      | nil => exact absurd hsp (splitOnChar_ne_nil c xs)
      | cons a b => exact ⟨a, b, rfl⟩
    rw [hht] at ih
    rw [splitOnChar_cons_of_cons c x _ _ _ hht]
    by_cases hx : x = c
    · simp [if_pos hx, intercalateChar, ih, hx]
    · rw [if_neg hx]
      cases t with
      | nil => simpa [intercalateChar] using congrArg (x :: ·) ih
      | cons z t' =>
        simp only [intercalateChar] at ih ⊢
        simp [← ih]

theorem mem_splitOnChar_noChar (c : Char) (l : Str) :
    ∀ t ∈ splitOnChar c l, noChar c t = true := by
  induction l with
  | nil =>
    intro t ht
    simp only [splitOnChar, List.mem_singleton] at ht
    simp [ht, noChar]
  | cons x xs ih =>
    obtain ⟨h, t0, hht⟩ : ∃ h t0, splitOnChar c xs = h :: t0 := by
      cases hsp : splitOnChar c xs with
      | nil => exact absurd hsp (splitOnChar_ne_nil c xs)
      | cons a b => exact ⟨a, b, rfl⟩
    have hh : noChar c h = true := ih h (by rw [hht]; exact List.mem_cons_self _ _)
    have ht0 : ∀ t ∈ t0, noChar c t = true :=
      fun t ht => ih t (by rw [hht]; exact List.mem_cons_of_mem _ ht)
    rw [splitOnChar_cons_of_cons c x _ _ _ hht]
    by_cases hx : x = c
    · rw [if_pos hx]
      intro t ht
      rw [List.mem_cons] at ht
      rcases ht with rfl | ht
      · simp [noChar]
      · rw [List.mem_cons] at ht
        rcases ht with rfl | ht
        · exact hh
        · exact ht0 t ht
    · rw [if_neg hx]
      intro t ht
      rw [List.mem_cons] at ht
      rcases ht with rfl | ht
      · simp only [noChar, List.all_cons, Bool.and_eq_true, decide_eq_true_eq]
        exact ⟨hx, hh⟩
      · exact ht0 t ht

theorem intercalateChar_concat (c : Char) (xs : List Str) (d : Str) (h : xs ≠ []) :
    intercalateChar c (xs ++ [d]) = intercalateChar c xs ++ c :: d := by
  induction xs with
  | nil => exact absurd rfl h
  | cons x xs' ih =>
    cases xs' with
    | nil => simp [intercalateChar]
    | cons y rest =>
      have h2 := ih (by simp)
      calc intercalateChar c ((x :: y :: rest) ++ [d])
          = x ++ c :: intercalateChar c ((y :: rest) ++ [d]) := rfl
        _ = x ++ c :: (intercalateChar c (y :: rest) ++ c :: d) := by rw [h2]
        _ = (x ++ c :: intercalateChar c (y :: rest)) ++ c :: d := by simp
        _ = intercalateChar c (x :: y :: rest) ++ c :: d := rfl

theorem dropLast_concat_getLastD {α : Type} (l : List α) (a : α) (h : l ≠ []) :
    l.dropLast ++ [l.getLastD a] = l := by
  induction l generalizing a with
  | nil => exact absurd rfl h
  | cons x xs ih =>
    cases xs with
    | nil => simp
    | cons y rest =>
      simp only [List.dropLast_cons₂, List.getLastD_cons, List.cons_append,
        List.cons.injEq, true_and]
      have h3 := ih x (by simp)
      simpa only [List.getLastD_cons] using h3

theorem getLastD_mem {α : Type} (l : List α) (a : α) (h : l ≠ []) :
    l.getLastD a ∈ l := by
  have h2 := dropLast_concat_getLastD l a h
  have hm : l.getLastD a ∈ l.dropLast ++ [l.getLastD a] :=
    List.mem_append_right _ (List.mem_singleton.2 rfl)
  rwa [h2] at hm

theorem parseND_append (s d : Str) (h : noChar '_' d = true) :
    parseND (s ++ '_' :: d) = some (s, d) := by
  have hs := splitOnChar_ne_nil '_' s
  have hsplit : splitOnChar '_' (s ++ '_' :: d) = splitOnChar '_' s ++ [d] := by
    rw [splitOnChar_append, splitOnChar_of_noChar _ _ h]
  have hlen : 2 ≤ (splitOnChar '_' s ++ [d]).length := by
    simp only [List.length_append, List.length_singleton]
    have h1 : 1 ≤ (splitOnChar '_' s).length := by
      cases hsp : splitOnChar '_' s with
      | nil => exact absurd hsp hs
      | cons a b => simp
    omega
  simp only [parseND, hsplit, if_pos hlen, List.dropLast_concat, List.getLastD_concat]
  rw [intercalateChar_splitOnChar]

theorem parseND_sound (r n d : Str) (h : parseND r = some (n, d)) :
    r = n ++ '_' :: d ∧ noChar '_' d = true := by
  by_cases hlen : 2 ≤ (splitOnChar '_' r).length
  · simp only [parseND, if_pos hlen, Option.some.injEq, Prod.mk.injEq] at h
    have hne : splitOnChar '_' r ≠ [] := splitOnChar_ne_nil '_' r
    have hdl : (splitOnChar '_' r).dropLast ≠ [] := by
      have hl := List.length_dropLast (splitOnChar '_' r)
      intro hc
      rw [hc] at hl
      simp only [List.length_nil] at hl
      omega
    constructor
    · calc r = intercalateChar '_' (splitOnChar '_' r) :=
            (intercalateChar_splitOnChar '_' r).symm
        _ = intercalateChar '_'
              ((splitOnChar '_' r).dropLast ++ [(splitOnChar '_' r).getLastD []]) := by
            rw [dropLast_concat_getLastD _ _ hne]
        _ = intercalateChar '_' (splitOnChar '_' r).dropLast
              ++ '_' :: (splitOnChar '_' r).getLastD [] :=
            intercalateChar_concat _ _ _ hdl
        _ = n ++ '_' :: d := by rw [h.1, h.2]
    · rw [← h.2]
      exact mem_splitOnChar_noChar '_' r _ (getLastD_mem _ _ hne)
  · simp [parseND, if_neg hlen] at h

theorem dlookup_mem {α : Type} (k : Str) (m : List (Str × α)) (v : α)
    (h : dlookup k m = some v) : (k, v) ∈ m := by
  induction m with
  | nil => simp [dlookup] at h
  | cons e rest ih =>
    by_cases he : e.1 = k
    · simp only [dlookup, if_pos he, Option.some.injEq] at h
      have hkv : (k, v) = e := Prod.ext (by rw [he]) (by rw [h])
      rw [hkv]
      exact List.mem_cons_self _ _
    · simp only [dlookup, if_neg he] at h
      exact List.mem_cons_of_mem _ (ih h)

theorem dlookup_eq_none {α : Type} (k : Str) (m : List (Str × α))
    (h : ∀ e ∈ m, ¬ e.1 = k) : dlookup k m = none := by
  induction m with
  | nil => rfl
  | cons e rest ih =>
    simp only [dlookup, if_neg (h e (List.mem_cons_self _ _))]
    exact ih (fun x hx => h x (List.mem_cons_of_mem _ hx))

theorem dlookup_derase_self {α : Type} (k : Str) (m : List (Str × α)) :
    dlookup k (derase k m) = none := by
  apply dlookup_eq_none
  intro e he
  simp only [derase, List.mem_filter] at he
  exact of_decide_eq_true he.2

theorem is_running_derase (k : Str) (m : RunMap) :
    is_running k (derase k m) = false := by
  simp [is_running, dlookup_derase_self]

theorem mem_dinsert {α : Type} (e : Str × α) (k : Str) (v : α) (m : List (Str × α))
    (h : e ∈ dinsert k v m) : e = (k, v) ∨ e ∈ m := by
  by_cases hm : dmem k m
  · simp only [dinsert, if_pos hm, List.mem_map] at h
    obtain ⟨a, ha, hae⟩ := h
    by_cases hk : a.1 = k
    · left; rw [← hae, if_pos hk]
    · right; rw [← hae, if_neg hk]; exact ha
  · simp only [dinsert, if_neg hm, List.mem_append, List.mem_singleton] at h
    tauto

/-- The final underscore-delimited token of a process key, i.e. the device
label a `stop_`/`start_` payload carrying this key would parse out. -/
def lastTok (k : Str) : Str := (splitOnChar '_' k).getLastD []

theorem lastTok_append (s d : Str) (h : noChar '_' d = true) :
    lastTok (s ++ '_' :: d) = d := by
  unfold lastTok
  rw [splitOnChar_append, splitOnChar_of_noChar _ _ h, List.getLastD_concat]

/-- The shape every key of `running_processes` has on an instance whose
device is `cd`: keys are only ever created by a successful `start`, whose
device-label token was checked equal to `cd`, so the final underscore token
of every key is `cd`.  `button` preserves this and the initial map is empty. -/
def MapInv (cd : Str) (m : RunMap) : Prop := ∀ e ∈ m, lastTok e.1 = cd

theorem classify_start (rest : Str) :
    classify ("start_".toList ++ rest) = .start rest := rfl

theorem classify_stop (rest : Str) :
    classify ("stop_".toList ++ rest) = .stop rest := rfl

theorem classify_status (rest : Str) :
    classify ("status_".toList ++ rest) = .status rest := rfl

theorem classify_info (rest : Str) :
    classify ("info_".toList ++ rest) = .info rest := rfl

theorem classify_deviceInfo (rest : Str) :
    classify ("device_info_".toList ++ rest) = .deviceInfo rest := rfl

theorem mem_firstDevicesAux (l : List (Str × ScriptInfo)) (seen : List Str)
    (n : Str) (i : ScriptInfo) (h : (n, i) ∈ l) (hfresh : i.device ∉ seen) :
    i.device ∈ firstDevicesAux seen l := by
  induction l generalizing seen with
  | nil => simp at h
  | cons e rest ih =>
    rw [List.mem_cons] at h
    unfold firstDevicesAux
    by_cases hin : e.2.device ∈ seen
    · rw [if_pos (decide_eq_true hin)]
      rcases h with rfl | h
      · exact absurd hin hfresh
      · exact ih seen h hfresh
    · rw [if_neg (by simpa using hin)]
      rcases h with rfl | h
      · exact List.mem_cons_self _ _
      · by_cases hd : i.device = e.2.device
        · rw [hd]; exact List.mem_cons_self _ _
        · refine List.mem_cons_of_mem _ (ih (e.2.device :: seen) h ?_)
          rw [List.mem_cons]
          intro hc
          rcases hc with hc | hc
          · exact hd hc
          · exact hfresh hc

theorem mem_firstDevices (l : List (Str × ScriptInfo)) (n : Str) (i : ScriptInfo)
    (h : (n, i) ∈ l) : i.device ∈ firstDevices l :=
  mem_firstDevicesAux l [] n i h (by simp)

theorem mem_groupByDevice (l : List (Str × ScriptInfo)) (n : Str) (i : ScriptInfo)
    (h : (n, i) ∈ l) :
    (i.device, l.filter (fun e => decide (e.2.device = i.device))) ∈ groupByDevice l :=
  List.mem_map_of_mem _ (mem_firstDevices l n i h)

theorem mkScriptRow_mem_panel (cd : Str) (m : RunMap)
    (scripts : List (Str × ScriptInfo)) (n : Str) (i : ScriptInfo)
    (h : (n, i) ∈ scripts) :
    ∃ kb, create_control_panel cd scripts m = some kb
      ∧ mkScriptRow cd m n i ∈ kb := by
  have hne : scripts ≠ [] := List.ne_nil_of_mem h
  refine ⟨(List.map (deviceBlock cd m (decide (1 < (groupByDevice scripts).length)))
    (groupByDevice scripts)).flatten ++ [utilityRow], ?_, ?_⟩
  · simp only [create_control_panel, if_neg hne]
  apply List.mem_append_left
  rw [List.mem_flatten]
  refine ⟨deviceBlock cd m (decide (1 < (groupByDevice scripts).length))
    (i.device, scripts.filter (fun e => decide (e.2.device = i.device))), ?_, ?_⟩
  · exact List.mem_map_of_mem _ (mem_groupByDevice scripts n i h)
  · apply List.mem_append_right
    have hmem : (n, i) ∈ scripts.filter (fun e => decide (e.2.device = i.device)) := by
      rw [List.mem_filter]
      exact ⟨h, by simp⟩
    exact List.mem_map_of_mem _ hmem

theorem panel_rows_cases (cd : Str) (m : RunMap) (scripts : List (Str × ScriptInfo))
    (row : List Btn) (kb : List (List Btn))
    (hkb : create_control_panel cd scripts m = some kb) (hrow : row ∈ kb) :
    row = utilityRow ∨ (∃ d, row = headerRow d)
      ∨ ∃ n i, (n, i) ∈ scripts ∧ row = mkScriptRow cd m n i := by
  by_cases hne : scripts = []
  · simp [create_control_panel, hne] at hkb
  · simp only [create_control_panel, if_neg hne, Option.some.injEq] at hkb
    rw [← hkb] at hrow
    rw [List.mem_append] at hrow
    rcases hrow with hrow | hrow
    · rw [List.mem_flatten] at hrow
      obtain ⟨block, hblock, hrowb⟩ := hrow
      rw [List.mem_map] at hblock
      obtain ⟨g, hg, hgb⟩ := hblock
      rw [← hgb] at hrowb
      simp only [deviceBlock, List.mem_append] at hrowb
      rcases hrowb with hrowb | hrowb
      · by_cases hmany : decide (1 < (groupByDevice scripts).length) = true
        · rw [if_pos hmany] at hrowb
          rw [List.mem_singleton] at hrowb
          exact Or.inr (Or.inl ⟨g.1, hrowb⟩)
        · rw [if_neg hmany] at hrowb
          simp at hrowb
      · rw [List.mem_map] at hrowb
        obtain ⟨e, he, hre⟩ := hrowb
        refine Or.inr (Or.inr ⟨e.1, e.2, ?_, hre.symm⟩)
        simp only [groupByDevice, List.mem_map] at hg
        obtain ⟨d, _, hgd⟩ := hg
        rw [← hgd] at he
        exact List.mem_of_mem_filter he
    · rw [List.mem_singleton] at hrow
      exact Or.inl hrow

theorem startParsed_preserves (cd : Str) (w : World)
    (scripts : List (Str × ScriptInfo)) (m : RunMap) (name dev : Str)
    (hnd : noChar '_' dev = true) (hinv : MapInv cd m) :
    MapInv cd (startParsed cd w scripts m name dev).map := by
  unfold startParsed
  split
  next info hinfo =>
    by_cases hdev : dev = cd
    · rw [if_pos hdev]
      by_cases hrun : is_running (name ++ '_' :: dev) m = true
      · rw [if_pos hrun]; exact hinv
      · rw [if_neg hrun]
        split
        next proc hspawn =>
          intro e he
          rcases mem_dinsert e _ _ m he with rfl | hem
          · simpa [lastTok_append name dev hnd] using hdev
          · exact hinv e hem
        next err hspawn => exact hinv
    · rw [if_neg hdev]; exact hinv
  next hinfo => exact hinv

theorem startAction_preserves (cd : Str) (w : World)
    (scripts : List (Str × ScriptInfo)) (m : RunMap) (rest : Str)
    (hinv : MapInv cd m) : MapInv cd (startAction cd w scripts m rest).map := by
  unfold startAction
  cases hp : parseND rest with
  | none => exact hinv
  | some nd =>
    obtain ⟨name, dev⟩ := nd
    show MapInv cd (startParsed cd w scripts m name dev).map
    exact startParsed_preserves cd w scripts m name dev
      (parseND_sound rest name dev hp).2 hinv

theorem stopParsed_preserves (cd : Str) (w : World) (m : RunMap)
    (name dev : Str) (hinv : MapInv cd m) :
    MapInv cd (stopParsed w m name dev).map := by
  unfold stopParsed
  split
  next proc hproc =>
    by_cases halive : proc.alive = true
    · rw [if_pos halive]
      by_cases hraise : w.stopRaises = true
      · rw [if_pos hraise]; exact hinv
      · rw [if_neg hraise]
        intro e he
        simp only [derase] at he
        exact hinv e (List.mem_of_mem_filter he)
    · rw [if_neg halive]; exact hinv
  next hproc => exact hinv

theorem stopAction_preserves (cd : Str) (w : World) (m : RunMap) (rest : Str)
    (hinv : MapInv cd m) : MapInv cd (stopAction w m rest).map := by
  unfold stopAction
  cases hp : parseND rest with
  | none => exact hinv
  | some nd =>
    obtain ⟨name, dev⟩ := nd
    show MapInv cd (stopParsed w m name dev).map
    exact stopParsed_preserves cd w m name dev hinv

theorem MapInv_nil (cd : Str) : MapInv cd [] := by
  intro e he
  simp at he

theorem button_preserves_MapInv (cfg : Config) (cd : Str) (w : World) (m : RunMap)
    (chat : Str) (uid : Nat) (payload : Str) (hinv : MapInv cd m) :
    MapInv cd (button cfg cd w m chat uid payload).map := by
  unfold button
  by_cases hauth : cfg.authorized_user_ids.contains uid = true
  · rw [if_pos hauth]
    cases hc : classify payload with
    | refresh =>
      cases hk : create_control_panel cd (get_scripts_for_group cfg chat) m with
      | none => simp only [hc, hk]; exact hinv
      | some kb => simp only [hc, hk]; exact hinv
    | settings => simp only [hc]; exact hinv
    | deviceInfo rest => simp only [hc]; exact hinv
    | status rest =>
      simp only [hc]
      unfold statusAction
      split
      · unfold statusBranch
        split <;> exact hinv
      · exact hinv
    | info rest =>
      simp only [hc]
      unfold infoAction
      split
      · unfold infoBranch
        split <;> exact hinv
      · exact hinv
    | start rest => simp only [hc]; exact startAction_preserves cd w _ m rest hinv
    | stop rest => simp only [hc]; exact stopAction_preserves cd w m rest hinv
    | other => simp only [hc]; exact hinv
  · rw [if_neg hauth]; exact hinv

theorem button_start_eq (cfg : Config) (cd : Str) (w : World) (m : RunMap)
    (chat : Str) (uid : Nat) (rest : Str)
    (hauth : cfg.authorized_user_ids.contains uid = true) :
    button cfg cd w m chat uid ("start_".toList ++ rest)
      = startAction cd w (get_scripts_for_group cfg chat) m rest := by
  unfold button
  rw [if_pos hauth, classify_start]

theorem button_stop_eq (cfg : Config) (cd : Str) (w : World) (m : RunMap)
    (chat : Str) (uid : Nat) (rest : Str)
    (hauth : cfg.authorized_user_ids.contains uid = true) :
    button cfg cd w m chat uid ("stop_".toList ++ rest)
      = stopAction w m rest := by
  unfold button
  rw [if_pos hauth, classify_stop]

theorem startAction_parsed_eq (cd : Str) (w : World)
    (scripts : List (Str × ScriptInfo)) (m : RunMap) (rest name dev : Str)
    (hp : parseND rest = some (name, dev)) :
    startAction cd w scripts m rest = startParsed cd w scripts m name dev := by
  unfold startAction
  rw [hp]

theorem stopAction_parsed_eq (w : World) (m : RunMap) (rest name dev : Str)
    (hp : parseND rest = some (name, dev)) :
    stopAction w m rest = stopParsed w m name dev := by
  unfold stopAction
  rw [hp]

theorem startParsed_noScript (cd : Str) (w : World)
    (scripts : List (Str × ScriptInfo)) (m : RunMap) (name dev : Str)
    (hl : dlookup name scripts = none) :
    startParsed cd w scripts m name dev = ⟨m, .edit notAvailMsg, []⟩ := by
  simp only [startParsed, hl]

theorem startParsed_wrongDevice (cd : Str) (w : World)
    (scripts : List (Str × ScriptInfo)) (m : RunMap) (name dev : Str)
    (info : ScriptInfo) (hl : dlookup name scripts = some info)
    (hdev : ¬ dev = cd) :
    startParsed cd w scripts m name dev = ⟨m, .edit notAvailMsg, []⟩ := by
  simp only [startParsed, hl, if_neg hdev]

theorem startParsed_alreadyRunning (cd : Str) (w : World)
    (scripts : List (Str × ScriptInfo)) (m : RunMap) (name dev : Str)
    (info : ScriptInfo) (hl : dlookup name scripts = some info)
    (hdev : dev = cd) (hrun : is_running (name ++ '_' :: dev) m = true) :
    startParsed cd w scripts m name dev
      = ⟨m, .edit (alreadyRunningMsg name dev), []⟩ := by
  simp only [startParsed, hl, if_pos hdev, hrun, if_pos]

theorem startParsed_spawnOk (cd : Str) (w : World)
    (scripts : List (Str × ScriptInfo)) (m : RunMap) (name dev : Str)
    (info : ScriptInfo) (proc : Proc) (hl : dlookup name scripts = some info)
    (hdev : dev = cd) (hrun : is_running (name ++ '_' :: dev) m = false)
    (hspawn : w.spawnRes = .ok proc) :
    startParsed cd w scripts m name dev
      = ⟨dinsert (name ++ '_' :: dev) proc m,
         .edit (startSuccessMsg name dev proc.pid
           (info.python_cmd.getD ("python3".toList))),
         [.popen (info.python_cmd.getD ("python3".toList)) info.path]⟩ := by
  subst hdev
  simp [startParsed, hl, hrun, hspawn]

theorem startParsed_spawnFail (cd : Str) (w : World)
    (scripts : List (Str × ScriptInfo)) (m : RunMap) (name dev : Str)
    (info : ScriptInfo) (err : Str) (hl : dlookup name scripts = some info)
    (hdev : dev = cd) (hrun : is_running (name ++ '_' :: dev) m = false)
    (hspawn : w.spawnRes = .error err) :
    startParsed cd w scripts m name dev
      = ⟨m, .edit (startFailMsg name dev err),
         [.popen (info.python_cmd.getD ("python3".toList)) info.path]⟩ := by
  subst hdev
  simp [startParsed, hl, hrun, hspawn]

theorem stopParsed_noHandle (w : World) (m : RunMap) (name dev : Str)
    (hl : dlookup (name ++ '_' :: dev) m = none) :
    stopParsed w m name dev = ⟨m, .edit (noProcMsg name dev), []⟩ := by
  simp only [stopParsed, hl]

theorem stopParsed_stale (w : World) (m : RunMap) (name dev : Str) (proc : Proc)
    (hl : dlookup (name ++ '_' :: dev) m = some proc)
    (hdead : proc.alive = false) :
    stopParsed w m name dev = ⟨m, .edit (notRunningMsg name dev), []⟩ := by
  simp [stopParsed, hl, hdead]

theorem stopParsed_alive (w : World) (m : RunMap) (name dev : Str) (proc : Proc)
    (hl : dlookup (name ++ '_' :: dev) m = some proc)
    (halive : proc.alive = true) (hraise : w.stopRaises = false) :
    stopParsed w m name dev
      = ⟨derase (name ++ '_' :: dev) m, .edit (stopSuccessMsg name dev),
         [.terminate proc.pid, .waitTimeout proc.pid 5]
           ++ (if w.gracefulExit then [] else [.kill proc.pid, .wait proc.pid])⟩ := by
  simp [stopParsed, hl, halive, hraise]

/-- C7: a payload remainder of the form `<scriptname>_<device>` — including
script names that themselves contain underscores — parses to exactly that
script name and device label whenever the device label is underscore-free,
and conversely every successful parse recovers the remainder as
`name ++ "_" ++ device` with an underscore-free device: the final
underscore-delimited token is the device label and the whole middle segment
is the script name. -/
theorem C7_payload_parse :
    (∀ s d : Str, noChar '_' d = true → parseND (s ++ '_' :: d) = some (s, d))
    ∧ (∀ r n d : Str, parseND r = some (n, d) →
        r = n ++ '_' :: d ∧ noChar '_' d = true) :=
  ⟨fun s d h => parseND_append s d h, fun r n d h => parseND_sound r n d h⟩

theorem C7_witness :
    noChar '_' ("mac".toList) = true
    ∧ parseND ("my_script".toList ++ '_' :: "mac".toList)
        = some ("my_script".toList, "mac".toList) :=
  ⟨by decide, C7_payload_parse.1 ("my_script".toList) ("mac".toList) (by decide)⟩

/-- C8: `get_scripts_for_group` is total and effect-free — modelled as a pure
function of the configuration, it cannot mutate anything by construction —
and it returns the empty dict rather than failing both when the group is
absent from the configuration and when the group's script list is empty. -/
theorem C8_scripts_for_group_total (cfg : Config) (chat : Str) :
    (dlookup chat cfg.groups = none → get_scripts_for_group cfg chat = [])
    ∧ (∀ g : GroupConfig, dlookup chat cfg.groups = some g → g.scripts = [] →
        get_scripts_for_group cfg chat = []) := by
  constructor
  · intro h
    unfold get_scripts_for_group
    rw [h]
  · intro g hg hs
    unfold get_scripts_for_group
    rw [hg]
    show g.scripts.foldl (fun acc s =>
      (scriptEntries s).foldl (fun acc2 e => dinsert e.1 e.2 acc2) acc) [] = []
    rw [hs]
    rfl

/-- A configuration with no groups at all, for exercising C8. -/
def cfgEmpty : Config := ⟨[7], none, false, []⟩

theorem C8_witness :
    dlookup ("42".toList) cfgEmpty.groups = none
    ∧ get_scripts_for_group cfgEmpty ("42".toList) = [] :=
  ⟨by decide, (C8_scripts_for_group_total cfgEmpty ("42".toList)).1 (by decide)⟩

/-- A world in which a spawn attempt would succeed with pid 1, a graceful
wait returns in time, and termination does not raise. -/
def wW : World := ⟨true, .ok ⟨1, true⟩, true, false, []⟩

/-- A configuration whose group `100` holds the new-format script `Logger`
with a `mac` entry, operated by authorized user 7 on device `mac`. -/
def cfgW : Config :=
  ⟨[7], some ("mac".toList), false,
   [("100".toList,
     ⟨some ("G".toList), none,
      [⟨"Logger".toList, none, none,
        [("mac".toList, .objCfg (some ("/a.py".toList)) none none)]⟩], true⟩)]⟩

/-- A running-process map holding one live handle for key `A_mac`. -/
def mW : RunMap := [("A_mac".toList, ⟨3, true⟩)]

instance (cd : Str) (m : RunMap) : Decidable (MapInv cd m) :=
  inferInstanceAs (Decidable (∀ e ∈ m, lastTok e.1 = cd))

/-- C1: an inbound `start` or `stop` whose parsed device label differs from
this instance's resolved device is rejected with an explanatory reply, no
OS process call is made (empty trace), and the running-process map is
returned unchanged.  The `stop` half rests on the invariant (established by
`MapInv_nil` and `button_preserves_MapInv`) that every recorded key's final
underscore token is this instance's device label, so a foreign-device key is
never found in the map. -/
theorem C1_device_mismatch (cfg : Config) (cd : Str) (w : World) (m : RunMap)
    (chat : Str) (uid : Nat) (rest name dev : Str)
    (hauth : cfg.authorized_user_ids.contains uid = true)
    (hinv : MapInv cd m)
    (hparse : parseND rest = some (name, dev))
    (hne : ¬ dev = cd) :
    button cfg cd w m chat uid ("start_".toList ++ rest)
        = ⟨m, .edit notAvailMsg, []⟩
    ∧ button cfg cd w m chat uid ("stop_".toList ++ rest)
        = ⟨m, .edit (noProcMsg name dev), []⟩ := by
  constructor
  · rw [button_start_eq cfg cd w m chat uid rest hauth,
        startAction_parsed_eq cd w _ m rest name dev hparse]
    cases hl : dlookup name (get_scripts_for_group cfg chat) with
    | none => exact startParsed_noScript cd w _ m name dev hl
    | some info => exact startParsed_wrongDevice cd w _ m name dev info hl hne
  · rw [button_stop_eq cfg cd w m chat uid rest hauth,
        stopAction_parsed_eq w m rest name dev hparse]
    apply stopParsed_noHandle
    apply dlookup_eq_none
    intro e he hek
    have hlast : lastTok e.1 = cd := hinv e he
    rw [hek, lastTok_append name dev (parseND_sound rest name dev hparse).2] at hlast
    exact hne hlast

theorem C1_witness :
    MapInv ("mac".toList) mW
    ∧ button cfgW ("mac".toList) wW mW ("100".toList) 7
        ("start_".toList ++ "B_pc".toList) = ⟨mW, .edit notAvailMsg, []⟩
    ∧ button cfgW ("mac".toList) wW mW ("100".toList) 7
        ("stop_".toList ++ "B_pc".toList)
        = ⟨mW, .edit (noProcMsg ("B".toList) ("pc".toList)), []⟩ := by
  have h := C1_device_mismatch cfgW ("mac".toList) wW mW ("100".toList) 7
    ("B_pc".toList) ("B".toList) ("pc".toList)
    (by decide) (by decide) (by decide) (by decide)
  exact ⟨by decide, h.1, h.2⟩

/-- C3: a `start` for a key on which `is_running` is true never changes the
running-process map or touches the OS (so no second handle can ever exist
for the key), and whenever the command resolves on this instance — the
script name is known to the group and the device label is this instance's —
the reply is precisely the already-running rejection. -/
theorem C3_start_already_running (cfg : Config) (cd : Str) (w : World)
    (m : RunMap) (chat : Str) (uid : Nat) (rest name dev : Str)
    (hauth : cfg.authorized_user_ids.contains uid = true)
    (hparse : parseND rest = some (name, dev))
    (hrun : is_running (name ++ '_' :: dev) m = true) :
    (button cfg cd w m chat uid ("start_".toList ++ rest)).map = m
    ∧ (button cfg cd w m chat uid ("start_".toList ++ rest)).trace = []
    ∧ (∀ info, dlookup name (get_scripts_for_group cfg chat) = some info →
        dev = cd →
        button cfg cd w m chat uid ("start_".toList ++ rest)
          = ⟨m, .edit (alreadyRunningMsg name dev), []⟩) := by
  rw [button_start_eq cfg cd w m chat uid rest hauth,
      startAction_parsed_eq cd w _ m rest name dev hparse]
  cases hl : dlookup name (get_scripts_for_group cfg chat) with
  | none =>
    rw [startParsed_noScript cd w _ m name dev hl]
    exact ⟨rfl, rfl, fun info hinfo _ => Option.noConfusion hinfo⟩
  | some info =>
    by_cases hdev : dev = cd
    · rw [startParsed_alreadyRunning cd w _ m name dev info hl hdev hrun]
      exact ⟨rfl, rfl, fun info2 hinfo2 hdev2 => rfl⟩
    · rw [startParsed_wrongDevice cd w _ m name dev info hl hdev]
      exact ⟨rfl, rfl, fun info2 hinfo2 hdev2 => absurd hdev2 hdev⟩

/-- The scripts-dict value cfgW derives for `Logger` on `mac`. -/
def infoW : ScriptInfo :=
  ⟨"/a.py".toList, "mac".toList, [], some ("Logger".toList),
   some ("python3".toList)⟩

/-- A running-process map holding one live handle for cfgW's Logger key. -/
def mRun : RunMap := [("Logger (MAC)_mac".toList, ⟨5, true⟩)]

theorem C3_witness :
    is_running ("Logger (MAC)".toList ++ '_' :: "mac".toList) mRun = true
    ∧ button cfgW ("mac".toList) wW mRun ("100".toList) 7
        ("start_".toList ++ "Logger (MAC)_mac".toList)
        = ⟨mRun, .edit (alreadyRunningMsg ("Logger (MAC)".toList)
            ("mac".toList)), []⟩ := by
  refine ⟨by decide, ?_⟩
  exact (C3_start_already_running cfgW ("mac".toList) wW mRun ("100".toList) 7
    ("Logger (MAC)_mac".toList) ("Logger (MAC)".toList) ("mac".toList)
    (by decide) (by decide) (by decide)).2.2 infoW (by decide) rfl

/-- C4: a `stop` for a key whose recorded process is still alive performs
exactly the two-phase sequence — graceful-termination signal, wait bounded
by 5 seconds, then kill followed by an unconditional wait only when the
graceful wait timed out — removes the handle, and afterwards the key is no
longer running. -/
theorem C4_stop_two_phase (cfg : Config) (cd : Str) (w : World) (m : RunMap)
    (chat : Str) (uid : Nat) (rest name dev : Str) (proc : Proc)
    (hauth : cfg.authorized_user_ids.contains uid = true)
    (hparse : parseND rest = some (name, dev))
    (hl : dlookup (name ++ '_' :: dev) m = some proc)
    (halive : proc.alive = true)
    (hraise : w.stopRaises = false) :
    button cfg cd w m chat uid ("stop_".toList ++ rest)
      = ⟨derase (name ++ '_' :: dev) m, .edit (stopSuccessMsg name dev),
         [.terminate proc.pid, .waitTimeout proc.pid 5]
           ++ (if w.gracefulExit then [] else [.kill proc.pid, .wait proc.pid])⟩
    ∧ is_running (name ++ '_' :: dev)
        (button cfg cd w m chat uid ("stop_".toList ++ rest)).map = false := by
  have h1 : button cfg cd w m chat uid ("stop_".toList ++ rest)
      = ⟨derase (name ++ '_' :: dev) m, .edit (stopSuccessMsg name dev),
         [.terminate proc.pid, .waitTimeout proc.pid 5]
           ++ (if w.gracefulExit then []
               else [.kill proc.pid, .wait proc.pid])⟩ := by
    rw [button_stop_eq cfg cd w m chat uid rest hauth,
        stopAction_parsed_eq w m rest name dev hparse]
    exact stopParsed_alive w m name dev proc hl halive hraise
  refine ⟨h1, ?_⟩
  rw [h1]
  exact is_running_derase _ m

theorem C4_witness :
    dlookup ("A".toList ++ '_' :: "mac".toList) mW = some ⟨3, true⟩
    ∧ button cfgW ("mac".toList) wW mW ("100".toList) 7
        ("stop_".toList ++ "A_mac".toList)
        = ⟨[], .edit (stopSuccessMsg ("A".toList) ("mac".toList)),
           [.terminate 3, .waitTimeout 3 5]⟩
    ∧ is_running ("A".toList ++ '_' :: "mac".toList)
        (button cfgW ("mac".toList) wW mW ("100".toList) 7
          ("stop_".toList ++ "A_mac".toList)).map = false := by
  have h := C4_stop_two_phase cfgW ("mac".toList) wW mW ("100".toList) 7
    ("A_mac".toList) ("A".toList) ("mac".toList) ⟨3, true⟩
    (by decide) (by decide) (by decide) (by decide) (by decide)
  exact ⟨by decide, h.1, h.2⟩

theorem statusBranch_map_trace (m : RunMap) (scripts : List (Str × ScriptInfo))
    (name dev : Str) :
    (statusBranch m scripts name dev).map = m
    ∧ (statusBranch m scripts name dev).trace = [] := by
  unfold statusBranch
  split <;> exact ⟨rfl, rfl⟩

theorem infoBranch_map_trace (m : RunMap) (scripts : List (Str × ScriptInfo))
    (name dev : Str) :
    (infoBranch m scripts name dev).map = m
    ∧ (infoBranch m scripts name dev).trace = [] := by
  unfold infoBranch
  split <;> exact ⟨rfl, rfl⟩

theorem statusAction_map_trace (m : RunMap) (scripts : List (Str × ScriptInfo))
    (rest : Str) :
    (statusAction m scripts rest).map = m
    ∧ (statusAction m scripts rest).trace = [] := by
  unfold statusAction
  cases hp : parseND rest with
  | none => exact ⟨rfl, rfl⟩
  | some nd =>
    obtain ⟨name, dev⟩ := nd
    exact statusBranch_map_trace m scripts name dev

theorem infoAction_map_trace (m : RunMap) (scripts : List (Str × ScriptInfo))
    (rest : Str) :
    (infoAction m scripts rest).map = m
    ∧ (infoAction m scripts rest).trace = [] := by
  unfold infoAction
  cases hp : parseND rest with
  | none => exact ⟨rfl, rfl⟩
  | some nd =>
    obtain ⟨name, dev⟩ := nd
    exact infoBranch_map_trace m scripts name dev

/-- C10: the `refresh`, `settings`, `device_info_`, `status_` and `info_`
callbacks only read registry and configuration state: handling any of them
leaves the running-process map unchanged and performs no OS process call. -/
theorem C10_read_only_branches (cfg : Config) (cd : Str) (w : World)
    (m : RunMap) (chat : Str) (uid : Nat) (payload : Str)
    (h : payload = "refresh".toList ∨ payload = "settings".toList
      ∨ (∃ r, payload = "device_info_".toList ++ r)
      ∨ (∃ r, payload = "status_".toList ++ r)
      ∨ (∃ r, payload = "info_".toList ++ r)) :
    (button cfg cd w m chat uid payload).map = m
    ∧ (button cfg cd w m chat uid payload).trace = [] := by
  unfold button
  by_cases hauth : cfg.authorized_user_ids.contains uid = true
  · rw [if_pos hauth]
    rcases h with rfl | rfl | ⟨r, rfl⟩ | ⟨r, rfl⟩ | ⟨r, rfl⟩
    · rw [show classify ("refresh".toList) = BotAction.refresh from rfl]
      cases hk : create_control_panel cd (get_scripts_for_group cfg chat) m with
      | none => exact ⟨rfl, rfl⟩
      | some kb => exact ⟨rfl, rfl⟩
    · rw [show classify ("settings".toList) = BotAction.settings from rfl]
      exact ⟨rfl, rfl⟩
    · rw [classify_deviceInfo r]
      exact ⟨rfl, rfl⟩
    · rw [classify_status r]
      exact statusAction_map_trace m _ r
    · rw [classify_info r]
      exact infoAction_map_trace m _ r
  · rw [if_neg hauth]
    exact ⟨rfl, rfl⟩

theorem C10_witness :
    (button cfgW ("mac".toList) wW mW ("100".toList) 7
      ("refresh".toList)).map = mW
    ∧ (button cfgW ("mac".toList) wW mW ("100".toList) 7
        ("refresh".toList)).trace = [] :=
  C10_read_only_branches cfgW ("mac".toList) wW mW ("100".toList) 7
    ("refresh".toList) (Or.inl rfl)

/-- A running-process map holding one stale (already exited) handle for key
`A_mac`. -/
def mStale : RunMap := [("A_mac".toList, ⟨4, false⟩)]

/-- C2 counterexample: a `stop` on a key whose recorded process has exited
replies with the not-running rejection but does NOT remove the stale handle
— the map after the command still holds the dead handle, contradicting the
claim's "removes the stale handle from the running-process map". -/
theorem C2_counterexample :
    button cfgW ("mac".toList) wW mStale ("100".toList) 7
        ("stop_".toList ++ "A_mac".toList)
      = ⟨mStale, .edit (notRunningMsg ("A".toList) ("mac".toList)), []⟩
    ∧ dlookup ("A".toList ++ '_' :: "mac".toList)
        (button cfgW ("mac".toList) wW mStale ("100".toList) 7
          ("stop_".toList ++ "A_mac".toList)).map = some ⟨4, false⟩ := by
  decide

/-- C2 amended: `stop` on a key with no recorded handle replies not-found
and changes nothing; `stop` on a key whose recorded process has exited
replies not-running and ALSO changes nothing — the stale handle is left in
the map (the source's not-running branch performs no deletion). -/
theorem C2_stop_missing_or_stale (cfg : Config) (cd : Str) (w : World)
    (m : RunMap) (chat : Str) (uid : Nat) (rest name dev : Str)
    (hauth : cfg.authorized_user_ids.contains uid = true)
    (hparse : parseND rest = some (name, dev)) :
    (dlookup (name ++ '_' :: dev) m = none →
      button cfg cd w m chat uid ("stop_".toList ++ rest)
        = ⟨m, .edit (noProcMsg name dev), []⟩)
    ∧ (∀ proc : Proc, dlookup (name ++ '_' :: dev) m = some proc →
        proc.alive = false →
        button cfg cd w m chat uid ("stop_".toList ++ rest)
          = ⟨m, .edit (notRunningMsg name dev), []⟩) := by
  rw [button_stop_eq cfg cd w m chat uid rest hauth,
      stopAction_parsed_eq w m rest name dev hparse]
  exact ⟨fun hl => stopParsed_noHandle w m name dev hl,
         fun proc hl hdead => stopParsed_stale w m name dev proc hl hdead⟩

theorem C2_witness :
    dlookup ("A".toList ++ '_' :: "mac".toList) mStale = some ⟨4, false⟩
    ∧ button cfgW ("mac".toList) wW mStale ("100".toList) 7
        ("stop_".toList ++ "A_mac".toList)
        = ⟨mStale, .edit (notRunningMsg ("A".toList) ("mac".toList)), []⟩
    ∧ button cfgW ("mac".toList) wW [] ("100".toList) 7
        ("stop_".toList ++ "A_mac".toList)
        = ⟨[], .edit (noProcMsg ("A".toList) ("mac".toList)), []⟩ := by
  refine ⟨by decide, ?_, ?_⟩
  · exact (C2_stop_missing_or_stale cfgW ("mac".toList) wW mStale
      ("100".toList) 7 ("A_mac".toList) ("A".toList) ("mac".toList)
      (by decide) (by decide)).2 ⟨4, false⟩ (by decide) rfl
  · exact (C2_stop_missing_or_stale cfgW ("mac".toList) wW []
      ("100".toList) 7 ("A_mac".toList) ("A".toList) ("mac".toList)
      (by decide) (by decide)).1 rfl

/-- A world where the target path does not exist on disk yet the spawn
succeeds — exactly what a real OS does when the interpreter exists but the
script file does not: `Popen([python, path])` starts the interpreter
regardless of whether `path` exists. -/
def wNoPath : World := ⟨false, .ok ⟨42, true⟩, true, false, []⟩

/-- C5 counterexample: the handler has no path-existence check.  With the
target path absent (`pathExists = false`) but the spawn call itself
succeeding, `start` reports success and RECORDS a handle — it does not fail
with any path-not-found error, contradicting the claim's first half. -/
theorem C5_counterexample :
    wNoPath.pathExists = false
    ∧ button cfgW ("mac".toList) wNoPath [] ("100".toList) 7
        ("start_".toList ++ "Logger (MAC)_mac".toList)
      = ⟨[("Logger (MAC)_mac".toList, ⟨42, true⟩)],
         .edit (startSuccessMsg ("Logger (MAC)".toList) ("mac".toList) 42
           ("python3".toList)),
         [.popen ("python3".toList) ("/a.py".toList)]⟩ := by
  decide

/-- C5 amended: when the spawn attempt itself fails (raises), `start`
reports the launch failure and adds no handle — the running-process map is
returned unchanged.  (The code never consults path existence; a missing
script path with a working interpreter spawns successfully and records a
handle, per the counterexample.) -/
theorem C5_spawn_failure_no_handle (cfg : Config) (cd : Str) (w : World)
    (m : RunMap) (chat : Str) (uid : Nat) (rest name dev : Str)
    (info : ScriptInfo) (err : Str)
    (hauth : cfg.authorized_user_ids.contains uid = true)
    (hparse : parseND rest = some (name, dev))
    (hl : dlookup name (get_scripts_for_group cfg chat) = some info)
    (hdev : dev = cd)
    (hrun : is_running (name ++ '_' :: dev) m = false)
    (hspawn : w.spawnRes = .error err) :
    button cfg cd w m chat uid ("start_".toList ++ rest)
      = ⟨m, .edit (startFailMsg name dev err),
         [.popen (info.python_cmd.getD ("python3".toList)) info.path]⟩ := by
  rw [button_start_eq cfg cd w m chat uid rest hauth,
      startAction_parsed_eq cd w _ m rest name dev hparse]
  exact startParsed_spawnFail cd w _ m name dev info err hl hdev hrun hspawn

/-- A world whose spawn attempt raises with message `boom`. -/
def wFail : World := ⟨true, .error ("boom".toList), true, false, []⟩

theorem C5_witness :
    wFail.spawnRes = .error ("boom".toList)
    ∧ button cfgW ("mac".toList) wFail [] ("100".toList) 7
        ("start_".toList ++ "Logger (MAC)_mac".toList)
      = ⟨[], .edit (startFailMsg ("Logger (MAC)".toList) ("mac".toList)
           ("boom".toList)),
         [.popen ("python3".toList) ("/a.py".toList)]⟩ := by
  refine ⟨rfl, ?_⟩
  exact C5_spawn_failure_no_handle cfgW ("mac".toList) wFail [] ("100".toList)
    7 ("Logger (MAC)_mac".toList) ("Logger (MAC)".toList) ("mac".toList)
    infoW ("boom".toList) (by decide) (by decide) (by decide) rfl (by decide)
    rfl

/-- True when some button of the keyboard is a start or stop toggle whose
callback payload targets the (script, device) key. -/
def hasToggleFor (kb : List (List Btn)) (name dev : Str) : Bool :=
  kb.any (fun row => row.any (fun b =>
    decide (b.callback_data = "start_".toList ++ name ++ '_' :: dev)
    || decide (b.callback_data = "stop_".toList ++ name ++ '_' :: dev)))

/-- A configuration whose group `100` holds the old-single-path-format
script `Old`, on an instance configured as device `mac`. -/
def cfgLegacy : Config :=
  ⟨[7], some ("mac".toList), false,
   [("100".toList,
     ⟨some ("G".toList), none,
      [⟨"Old".toList, none, some ("/old.py".toList), []⟩], true⟩)]⟩

/-- C6 counterexample: on an instance whose device is `mac`, the descriptor
derived from an old-format script carries device label `legacy` — not equal
to the instance's identity — yet the rendered panel exposes an actionable
start toggle for it.  An actionable toggle therefore does not require the
descriptor's device to equal the acting instance's identity, refuting the
claimed "exactly when" condition (this code version has no per-group
selected-device input at all). -/
theorem C6_counterexample :
    ¬ ("legacy".toList = "mac".toList)
    ∧ get_scripts_for_group cfgLegacy ("100".toList)
        = [("Old".toList,
            ⟨"/old.py".toList, "legacy".toList, [], none, none⟩)]
    ∧ hasToggleFor
        ((create_control_panel ("mac".toList)
          (get_scripts_for_group cfgLegacy ("100".toList)) []).getD [])
        ("Old".toList) ("legacy".toList) = true := by
  decide

/-- C6 amended: each scripts-dict entry contributes exactly one row to the
rendered panel: an actionable toggle row — stop + running indicator when the
key is running, start + stopped indicator otherwise — precisely when the
entry's device equals the acting instance's identity OR the `legacy` label,
and a non-actionable info row in every other case; every further row of the
panel is a device header or the utility row.  (The group's selected device
plays no role: no such field exists in this version of the code.) -/
theorem C6_panel_rows (cd : Str) (m : RunMap) (scripts : List (Str × ScriptInfo))
    (name : Str) (info : ScriptInfo) (h : (name, info) ∈ scripts) :
    ∃ kb, create_control_panel cd scripts m = some kb
      ∧ mkScriptRow cd m name info ∈ kb
      ∧ ((info.device = cd ∨ info.device = "legacy".toList) →
          mkScriptRow cd m name info
            = if is_running (name ++ '_' :: info.device) m then
                [⟨"🔴 Stop ".toList ++ name,
                  "stop_".toList ++ name ++ '_' :: info.device⟩,
                 ⟨"✅ Running".toList,
                  "status_".toList ++ name ++ '_' :: info.device⟩]
              else
                [⟨"🟢 Start ".toList ++ name,
                  "start_".toList ++ name ++ '_' :: info.device⟩,
                 ⟨"⭕ Stopped".toList,
                  "status_".toList ++ name ++ '_' :: info.device⟩])
      ∧ (¬ (info.device = cd ∨ info.device = "legacy".toList) →
          mkScriptRow cd m name info
            = [⟨"ℹ️ ".toList ++ name ++ " (Other Device)".toList,
                "info_".toList ++ name ++ '_' :: info.device⟩])
      ∧ ∀ row ∈ kb, row = utilityRow ∨ (∃ d, row = headerRow d)
          ∨ ∃ n2 i2, (n2, i2) ∈ scripts ∧ row = mkScriptRow cd m n2 i2 := by
  obtain ⟨kb, hkb, hmem⟩ := mkScriptRow_mem_panel cd m scripts name info h
  refine ⟨kb, hkb, hmem, ?_, ?_, ?_⟩
  · intro hcond
    simp only [mkScriptRow, if_pos hcond, List.append_assoc]
  · intro hcond
    simp only [mkScriptRow, if_neg hcond, List.append_assoc]
  · intro row hrow
    exact panel_rows_cases cd m scripts row kb hkb hrow

/-- The scripts-dict value cfgLegacy derives for its old-format script. -/
def liOld : ScriptInfo := ⟨"/old.py".toList, "legacy".toList, [], none, none⟩

/-- A one-entry scripts dict for a `pc`-only script, viewed from `mac`. -/
def scriptsPC : List (Str × ScriptInfo) :=
  [("R (PC)".toList, ⟨"/r.py".toList, "pc".toList, [], some ("R".toList), none⟩)]

theorem C6_witness :
    ("R (PC)".toList,
      (⟨"/r.py".toList, "pc".toList, [], some ("R".toList), none⟩ : ScriptInfo))
        ∈ scriptsPC
    ∧ ∃ kb, create_control_panel ("mac".toList) scriptsPC [] = some kb
        ∧ mkScriptRow ("mac".toList) [] ("R (PC)".toList)
            ⟨"/r.py".toList, "pc".toList, [], some ("R".toList), none⟩ ∈ kb := by
  refine ⟨by decide, ?_⟩
  obtain ⟨kb, h1, h2, _, _, _⟩ := C6_panel_rows ("mac".toList) [] scriptsPC
    ("R (PC)".toList)
    ⟨"/r.py".toList, "pc".toList, [], some ("R".toList), none⟩ (by decide)
  exact ⟨kb, h1, h2⟩

/-- The old-single-path-format script of cfgLegacy. -/
def sOld : ScriptCfg := ⟨"Old".toList, none, some ("/old.py".toList), []⟩

/-- A configuration identical to cfgLegacy except that its explicit
`current_device` override is the literal label `legacy`. -/
def cfgLegacyId : Config :=
  ⟨[7], some ("legacy".toList), false,
   [("100".toList,
     ⟨some ("G".toList), none, [sOld], true⟩)]⟩

/-- C9 counterexample: when the instance's resolved identity IS the literal
label `legacy` (an explicit `current_device` override makes this
realizable), pressing start on a legacy script is NOT rejected: the spawn
proceeds and a handle is recorded, refuting the claim's "always rejected and
never adds a handle". -/
theorem C9_counterexample :
    get_current_device cfgLegacyId ("linux".toList) = "legacy".toList
    ∧ button cfgLegacyId ("legacy".toList) wW [] ("100".toList) 7
        ("start_".toList ++ ("Old".toList ++ '_' :: "legacy".toList))
      = ⟨[("Old_legacy".toList, ⟨1, true⟩)],
         .edit (startSuccessMsg ("Old".toList) ("legacy".toList) 1
           ("python3".toList)),
         [.popen ("python3".toList) ("/old.py".toList)]⟩ := by
  decide

/-- C9 amended: an old-single-path-format script derives a descriptor with
device label `legacy`; the panel renders an actionable toggle for it on
every instance, whatever the instance's identity; and — provided the
instance's resolved identity is not the literal label `legacy` itself —
the start handler rejects the command (its device label `legacy` differs
from the identity) and adds no handle, leaving the map, reply and OS trace
exactly as a rejection. -/
theorem C9_legacy_scripts (cfg : Config) (cd : Str) (w : World) (m : RunMap)
    (chat : Str) (uid : Nat) (s : ScriptCfg) (p : Str) (li : ScriptInfo)
    (hauth : cfg.authorized_user_ids.contains uid = true)
    (hp : s.oldPath = some p)
    (hcd : ¬ cd = "legacy".toList)
    (hmem : (s.name, li) ∈ get_scripts_for_group cfg chat)
    (hdev : li.device = "legacy".toList) :
    scriptEntries s
        = [(s.name, ⟨p, "legacy".toList, s.description.getD [], none, none⟩)]
    ∧ (∃ kb, create_control_panel cd (get_scripts_for_group cfg chat) m
          = some kb
        ∧ mkScriptRow cd m s.name li ∈ kb
        ∧ mkScriptRow cd m s.name li
            = if is_running (s.name ++ '_' :: li.device) m then
                [⟨"🔴 Stop ".toList ++ s.name,
                  "stop_".toList ++ s.name ++ '_' :: li.device⟩,
                 ⟨"✅ Running".toList,
                  "status_".toList ++ s.name ++ '_' :: li.device⟩]
              else
                [⟨"🟢 Start ".toList ++ s.name,
                  "start_".toList ++ s.name ++ '_' :: li.device⟩,
                 ⟨"⭕ Stopped".toList,
                  "status_".toList ++ s.name ++ '_' :: li.device⟩])
    ∧ button cfg cd w m chat uid
        ("start_".toList ++ (s.name ++ '_' :: "legacy".toList))
        = ⟨m, .edit notAvailMsg, []⟩ := by
  refine ⟨by simp only [scriptEntries, hp], ?_, ?_⟩
  · obtain ⟨kb, h1, h2, h3, _, _⟩ :=
      C6_panel_rows cd m (get_scripts_for_group cfg chat) s.name li hmem
    exact ⟨kb, h1, h2, h3 (Or.inr hdev)⟩
  · have hparse : parseND (s.name ++ '_' :: "legacy".toList)
        = some (s.name, "legacy".toList) :=
      parseND_append s.name ("legacy".toList) (by decide)
    rw [button_start_eq cfg cd w m chat uid _ hauth,
        startAction_parsed_eq cd w _ m _ s.name ("legacy".toList) hparse]
    cases hl : dlookup s.name (get_scripts_for_group cfg chat) with
    | none => exact startParsed_noScript cd w _ m s.name ("legacy".toList) hl
    | some info2 =>
      exact startParsed_wrongDevice cd w _ m s.name ("legacy".toList) info2 hl
        (fun hcontra => hcd hcontra.symm)

theorem C9_witness :
    sOld.oldPath = some ("/old.py".toList)
    ∧ scriptEntries sOld = [("Old".toList, liOld)]
    ∧ button cfgLegacy ("mac".toList) wW [] ("100".toList) 7
        ("start_".toList ++ ("Old".toList ++ '_' :: "legacy".toList))
        = ⟨[], .edit notAvailMsg, []⟩ := by
  have h := C9_legacy_scripts cfgLegacy ("mac".toList) wW [] ("100".toList) 7
    sOld ("/old.py".toList) liOld (by decide) rfl (by decide) (by decide) rfl
  exact ⟨rfl, h.1, h.2.2⟩
